import Mathlib

/-!
Shallow embedding of `grpy-request-client` (Python) for specification checking.

Source files embedded:
- `src/request/models/request_model.py` (`RequestModel`)
- `src/grpy_request_client/managers/session_manager.py` (`SessionManager`)
- `src/grpy_request_client/managers/request_manager.py` (`RequestManager`)
  (its `execute_request` classification chain is textually identical to
  `src/grpy_request_client/handlers/request_handler.py::RequestHandler.execute_request`)

Modelling conventions:
- Python `dict[str, str]` becomes an association list `List (String × String)`
  with `dict.update` semantics (`setKey` / `dictUpdate`): updating an existing
  key replaces its value in place, a new key is appended.
- `aiohttp.ClientSession` objects become numeric identifiers (`Nat`); the
  process-wide state (which sessions exist / are closed, the `SessionManager`
  singleton reference) is an explicit `World` record.
- Python exceptions become `Except` results; the spec's error taxonomy
  (`ValidationError`, `ConfigurationError`, `AuthenticationError`,
  `AuthorizationError`, `ClientError`, `ServerError`) names the
  classification that the code realises with `RuntimeError` /
  `pydantic.ValidationError` / `aiohttp.ClientResponseError` carrying the
  corresponding message.
- Python `float` timeouts become `ℚ` (exact, ordered).
- `urllib.parse.urljoin` is modelled line by line from the CPython source
  for the references this code can feed it: a base URL that is a pydantic
  `HttpUrl` (scheme/host/path, no query or fragment) and a reference
  without a scheme or `;`-parameters; network-path (`//…`) references,
  rooted and relative paths, query and fragment suffixes, dot segments and
  empty segments all follow the library's resolution.
-/

namespace Grpy

/-- Association-list lookup, mirroring Python `d[k]` / `d.get(k)`. -/
def lookupKey (d : List (String × String)) (k : String) : Option String :=
  (d.find? (fun p => p.1 = k)).map (fun p => p.2)

/-- Python `d[k] = v` on a dict: replace the value of an existing key in
place, otherwise append the new binding at the end. -/
def setKey : List (String × String) → String → String → List (String × String)
  | [], k, v => [(k, v)]
  | p :: d, k, v => if p.1 = k then (k, v) :: d else p :: setKey d k v

/-- Python `d.update(u)`: apply `setKey` for the entries of `u` in order. -/
def dictUpdate (d : List (String × String)) :
    List (String × String) → List (String × String)
  | [] => d
  | p :: u => dictUpdate (setKey d p.1 p.2) u

/-- Keys of an association list. -/
def keysOf (d : List (String × String)) : List String := d.map (fun p => p.1)

/-- An absolute http(s) URL as pydantic `HttpUrl` stores it: scheme, host and
a path that pydantic normalises to start with "/" (an empty path becomes "/").
Query strings never occur in this code base's URLs. -/
structure Url where
  scheme : String
  host : String
  path : String
deriving DecidableEq, Repr

/-- Rendering `str(HttpUrl)`: the URL as a string. -/
def Url.render (u : Url) : String := u.scheme ++ "://" ++ u.host ++ u.path

/-- Helper of `splitOnSlash`: `acc` holds the (reversed) characters of the
segment being read. -/
def splitOnSlashAux : List Char → List Char → List String
  | [], acc => [⟨acc.reverse⟩]
  | c :: cs, acc =>
    if c = '/' then ⟨acc.reverse⟩ :: splitOnSlashAux cs []
    else splitOnSlashAux cs (c :: acc)

/-- Python `s.split('/')` on a character list. -/
def splitOnSlash (cs : List Char) : List String := splitOnSlashAux cs []

/-- Python `'/'.join(segs)`. -/
def joinSlash : List String → String
  | [] => ""
  | [s] => s
  | s :: rest => s ++ "/" ++ joinSlash rest

/-- Helper of `filterMiddle`: drop empty strings from every position except
the last. -/
def filterMiddleAux : List String → List String
  | [] => []
  | [s] => [s]
  | s :: t :: rest =>
    if s = "" then filterMiddleAux (t :: rest)
    else s :: filterMiddleAux (t :: rest)

/-- Python `segments[1:-1] = filter(None, segments[1:-1])` in
`urllib.parse.urljoin`: drop the empty segments strictly between the first
and the last one. -/
def filterMiddle : List String → List String
  | [] => []
  | s :: rest => s :: filterMiddleAux rest

/-- The `resolved_path` loop of `urllib.parse.urljoin`: ".." pops the last
resolved segment (silently when there is none), "." is skipped, everything
else is appended; a trailing "." or ".." re-appends the empty segment so the
result keeps its trailing slash. -/
def resolveSegments (segs : List String) : List String :=
  let folded := segs.foldl
    (fun acc seg =>
      if seg = ".." then acc.dropLast
      else if seg = "." then acc
      else acc ++ [seg]) []
  if segs.getLast? = some "." ∨ segs.getLast? = some ".." then folded ++ [""]
  else folded

/-- The `base_parts` computation of `urllib.parse.urljoin`: split the base
path on "/" and drop the last segment unless it is empty (the base path ends
in "/"). -/
def baseParts (bpathChars : List Char) : List String :=
  let parts := splitOnSlash bpathChars
  if parts.getLast? = some "" then parts else parts.dropLast

/-- Characters ending an authority component in `urllib.parse.urlsplit`
(`_splitnetloc` stops at the first of "/", "?", "#"). -/
def notDelimB (c : Char) : Bool := !(c == '/' || c == '?' || c == '#')

/-- Not the fragment separator. -/
def notHashB (c : Char) : Bool := !(c == '#')

/-- Not the query separator. -/
def notQmarkB (c : Char) : Bool := !(c == '?')

/-- Splitting a scheme-free, authority-free reference the way
`urllib.parse.urlsplit` does: the fragment is everything after the first
"#", the query everything after the first "?" of what precedes it, the path
what is left.  Returns the path characters and the rendered "?query#frag"
suffix; `urllib.parse.urlunsplit` drops an empty query and an empty
fragment, reproduced here. -/
def splitSuffix (cs : List Char) : List Char × String :=
  let pre := cs.takeWhile notHashB
  let frag := (cs.dropWhile notHashB).drop 1
  let path := pre.takeWhile notQmarkB
  let query := (pre.dropWhile notQmarkB).drop 1
  (path,
   (if query.isEmpty then "" else "?" ++ (⟨query⟩ : String)) ++
     (if frag.isEmpty then "" else "#" ++ (⟨frag⟩ : String)))

/-- The path/query resolution of `urllib.parse.urljoin` once the (possibly
absent) authority of the reference has been parsed away: an empty path keeps
the base path (query/fragment replaced); an absolute path is split on "/"
as is; a relative path is appended to `base_parts` with the empty middle
segments filtered out; either way the dot segments are then resolved, an
empty result defaults to "/", and a missing leading "/" is restored by
`urlunsplit` because a netloc is present. -/
def urljoinRelative (base : Url) (pathChars : List Char) (suffix : String) :
    Url :=
  if pathChars.isEmpty then ⟨base.scheme, base.host, base.path ++ suffix⟩
  else
    let segs :=
      if pathChars.head? = some '/' then splitOnSlash pathChars
      else filterMiddle (baseParts base.path.data ++ splitOnSlash pathChars)
    let joined := joinSlash (resolveSegments segs)
    let p1 := if joined = "" then "/" else joined
    let p2 := if p1.data.head? = some '/' then p1 else "/" ++ p1
    ⟨base.scheme, base.host, p2 ++ suffix⟩

/-- Model of `urllib.parse.urljoin(base, rel)` for the references this code
can feed it, followed line by line from the CPython source: an empty `rel`
returns the base; a `rel` starting with "//" carries an authority — when it
is non-empty the reference's path/query/fragment are taken verbatim under
the new authority, when it is empty (Python truthiness) the base authority
is kept and resolution continues with the rest; otherwise the reference is
path\x3fquery#fragment resolved against the base by `urljoinRelative`.
The model's domain excludes references carrying a scheme (a ":" preceded
only by scheme characters) and `;`-parameters; the base is a pydantic
`HttpUrl` (scheme/host/path, no query or fragment). -/
def urljoin (base : Url) (rel : String) : Url :=
  if rel = "" then base
  else if rel.data.head? = some '/' ∧ rel.data.tail.head? = some '/' then
    let rest := rel.data.drop 2
    let netloc := rest.takeWhile notDelimB
    let after := rest.dropWhile notDelimB
    let (pathChars, suffix) := splitSuffix after
    if netloc.isEmpty then urljoinRelative base pathChars suffix
    else ⟨base.scheme, ⟨netloc⟩, (⟨pathChars⟩ : String) ++ suffix⟩
  else
    let (pathChars, suffix) := splitSuffix rel.data
    urljoinRelative base pathChars suffix

/-- The prefix of a path up to and including its last "/" (empty when the
path has no "/"): the part of the base path that survives a relative-path
join. -/
def dirSlashList : List Char → List Char
  | [] => []
  | c :: cs =>
    if '/' ∈ cs then c :: dirSlashList cs
    else if c = '/' then ['/'] else []

/-- String version of `dirSlashList`. -/
def dirSlash (p : String) : String := ⟨dirSlashList p.data⟩

/-- From `src/request/models/request_model.py`: `RequestModel.VALID_METHODS`. -/
def VALID_METHODS : List String := ["GET", "POST", "PUT", "DELETE", "PATCH", "HEAD"]

/-- Package version (`src/_version.py`, not under `src/`; its value is
irrelevant to every claim — only the `User-Agent` header text uses it). -/
def versionString : String := "0.1.0"

/-- Constant `RequestModel.DEFAULT_USER_AGENT`, in the source the f-string of the product name and the package version. -/
def DEFAULT_USER_AGENT : String := "grpy-request-client/" ++ versionString

/-- Constant `RequestModel.DEFAULT_HEADERS`. -/
def DEFAULT_HEADERS : List (String × String) :=
  [("Accept", "application/json"),
   ("Content-Type", "application/json"),
   ("User-Agent", DEFAULT_USER_AGENT)]

/-- The validated request configuration (`RequestModel` after a successful
pydantic construction). `data` keeps only the shape the executor looks at
(present or absent). -/
structure RequestModel where
  base_url : Url
  method : String
  endpoint : String
  timeout : ℚ
  params : List (String × String)
  headers : List (String × String)
  data : Option (List (String × String))
deriving DecidableEq, Repr

/-- The spec's `ValidationError`: pydantic rejects the construction.  The
constructor records which field validator fired. -/
inductive ValidationError where
  | invalidUrl : ValidationError
  | invalidMethod (m : String) : ValidationError
  | invalidTimeout (t : ℚ) : ValidationError
deriving DecidableEq, Repr

/-- Construction: `RequestModel.__init__` plus pydantic field validation.

`base_url` arrives as `Option Url`: `none` stands for a missing or malformed
URL string (pydantic's `HttpUrl` parse failure), `some u` for a well-formed
absolute http(s) URL.  `__init__` first merges `DEFAULT_HEADERS` with the
caller's headers (caller values win; an empty caller dict is falsy in Python
and leaves the defaults untouched, which coincides with `dictUpdate _ []`),
then pydantic validates `method ∈ VALID_METHODS` (`validate_method`),
`timeout > 0` (`Field(gt=0)`) and the URL. -/
def mkRequestModel (base_url : Option Url) (method : String := "GET")
    (endpoint : String := "") (timeout : ℚ := 30)
    (params : List (String × String) := [])
    (headers : List (String × String) := [])
    (data : Option (List (String × String)) := none) :
    Except ValidationError RequestModel :=
  let mergedHeaders := dictUpdate DEFAULT_HEADERS headers
  match base_url with
  | none => .error .invalidUrl
  | some u =>
    if method ∈ VALID_METHODS then
      if timeout > 0 then
        .ok { base_url := u, method := method, endpoint := endpoint,
              timeout := timeout, params := params,
              headers := mergedHeaders, data := data }
      else .error (.invalidTimeout timeout)
    else .error (.invalidMethod method)

/-- Model of `RequestModel.update_headers` (`src/request/models/request_model.py`,
lines 54-64): when the current headers dict is falsy (empty) the method
assigns `DEFAULT_HEADERS` and never touches its argument; otherwise it
merges the argument in with `dict.update`. -/
def update_headers (m : RequestModel) (headers : List (String × String)) :
    RequestModel :=
  if m.headers.isEmpty then { m with headers := DEFAULT_HEADERS }
  else { m with headers := dictUpdate m.headers headers }

/-! ### Session world

`aiohttp.ClientSession` instances are identified by `Nat`.  The `World`
records every session created so far (`nextSid` ids `0, …, nextSid-1` are in
use), which of them have been closed, and the `SessionManager._shared_session`
class attribute. -/

/-- Process-wide state: allocated session ids, closed session ids, and the
`SessionManager` singleton reference. -/
structure World where
  nextSid : Nat
  closedSids : List Nat
  shared : Option Nat
deriving DecidableEq, Repr

/-- Reading `session.closed` for the session with id `sid`. -/
def World.isClosed (w : World) (sid : Nat) : Bool := sid ∈ w.closedSids

/-- Allocate a brand-new (open) session: `aiohttp.ClientSession()`, and the
body of `SessionManager.create_session` (the connector/timeout plumbing it
passes through is invisible to every claim). -/
def World.newSession (w : World) : Nat × World :=
  (w.nextSid, { w with nextSid := w.nextSid + 1 })

/-- Effect of `session.close()`: mark the session closed. -/
def World.closeSession (w : World) (sid : Nat) : World :=
  { w with closedSids := sid :: w.closedSids }

/-- Well-formed worlds: every id on record (closed list, singleton slot) was
actually allocated.  Every state reachable from the initial world satisfies
this, and `newSession`, `closeSession`, `get_shared_session` and
`close_shared_session` all preserve it. -/
def World.wf (w : World) : Bool :=
  w.closedSids.all (fun s => s < w.nextSid) &&
    w.shared.all (fun s => s < w.nextSid)

/-- Model of `SessionManager.get_shared_session` (`session_manager.py`, lines 17-34):
if no shared session is stored, or the stored one is closed, create a fresh
session via `create_session` and store it; return the stored session. -/
def get_shared_session (w : World) : Nat × World :=
  match w.shared with
  | some s =>
    if w.isClosed s then
      let (s', w') := w.newSession
      (s', { w' with shared := some s' })
    else (s, w)
  | none =>
    let (s', w') := w.newSession
    (s', { w' with shared := some s' })

/-- Model of `SessionManager.close_shared_session` (`session_manager.py`, lines 72-77):
when a shared session is stored and it is open, close it and clear the
reference; otherwise do nothing.  The second component counts how many times
the underlying `session.close()` was invoked by this call. -/
def close_shared_session (w : World) : World × Nat :=
  match w.shared with
  | some s =>
    if w.isClosed s then (w, 0)
    else ({ w.closeSession s with shared := none }, 1)
  | none => (w, 0)

/-! ### RequestManager (`src/grpy_request_client/managers/request_manager.py`)

The executor's per-instance state: its bound session (if any), the
`_owns_session` flag, and the `AsyncExitStack` (present between `__aenter__`
and `__aexit__`, recording the sessions it registered for cleanup). -/

/-- Per-instance `RequestManager` state. -/
structure RequestManager where
  session : Option Nat
  ownsSession : Bool
  exitStack : Option (List Nat)
deriving DecidableEq, Repr

/-- Constructor `RequestManager.__init__`: store the (optional) caller session; own the
session exactly when none was supplied; no exit stack yet. -/
def RequestManager.init (session : Option Nat) : RequestManager :=
  { session := session, ownsSession := session.isNone, exitStack := none }

/-- Entry step `RequestManager.__aenter__`: set up the exit stack; when no session is
bound, create one, mark it owned and register it on the exit stack; an
external session is only tagged (`session._external = True`), which changes
no state this model observes. -/
def RequestManager.aenter (rm : RequestManager) (w : World) :
    RequestManager × World :=
  match rm.session with
  | none =>
    let (sid, w') := w.newSession
    ({ rm with session := some sid, ownsSession := true,
               exitStack := some [sid] }, w')
  | some _ => ({ rm with exitStack := some [] }, w)

/-- Exit step `RequestManager.__aexit__`: close everything the exit stack registered
(`AsyncExitStack.aclose`), then clear the session reference when owned, and
drop the exit stack. -/
def RequestManager.aexit (rm : RequestManager) (w : World) :
    RequestManager × World :=
  let w' := (rm.exitStack.getD []).foldl (fun acc sid => acc.closeSession sid) w
  ({ rm with session := if rm.ownsSession then none else rm.session,
             exitStack := none }, w')

/-! ### Request execution -/

/-- The part of an `aiohttp.ClientResponse` the classification chain reads. -/
structure Response where
  status : Nat
  reason : String
deriving DecidableEq, Repr

/-- The spec's error taxonomy for `execute_request`.  In the code,
`configurationError` is the `RuntimeError` of `_ensure_session` and the four
HTTP cases are `aiohttp.ClientResponseError` values distinguished by their
message. -/
inductive RequestError where
  | configurationError (msg : String)
  | authenticationError (msg : String)
  | authorizationError (msg : String)
  | clientError (msg : String)
  | serverError (msg : String)
deriving DecidableEq, Repr

deriving instance DecidableEq for Except

/-- The `RuntimeError` message of `RequestManager._ensure_session`. -/
def noSessionMsg : String :=
  "No session available. Either provide a session during initialization " ++
  "or use RequestManager as an async context manager."

/-- The status-code classification chain of `RequestManager.execute_request`
(lines 181-229), textually identical in `RequestHandler.execute_request`
(lines 144-192): 401 → authentication error, 403 → authorization error,
other 400-499 → client error, 500-599 → server error, everything else is
returned unmodified. -/
def classifyResponse (r : Response) : Except RequestError Response :=
  if r.status = 401 then
    .error (.authenticationError
      ("Authentication failed: " ++ toString r.status ++ " " ++ r.reason))
  else if r.status = 403 then
    .error (.authorizationError
      ("Authorization failed: " ++ toString r.status ++ " " ++ r.reason))
  else if 400 ≤ r.status ∧ r.status < 500 then
    .error (.clientError (toString r.status ++ " " ++ r.reason))
  else if 500 ≤ r.status ∧ r.status < 600 then
    .error (.serverError (toString r.status ++ " " ++ r.reason))
  else .ok r

/-- Model of `RequestManager.execute_request` (lines 128-246): resolve the session
(`_ensure_session`, raising the `RuntimeError` when none is bound), build the
target URL with `urljoin(str(base_url), endpoint)`, issue the request through
the session and classify the response.  `respond` is the transport capability
(`session.request`); the second component of the result is the URL the
transport was invoked with, `none` when no network call was attempted. -/
def execute_request (rm : RequestManager) (cfg : RequestModel)
    (respond : String → Response) :
    Except RequestError Response × Option String :=
  match rm.session with
  | none => (.error (.configurationError noSessionMsg), none)
  | some _ =>
    let url := (urljoin cfg.base_url cfg.endpoint).render
    (classifyResponse (respond url), some url)

/-! ### Association-list lemmas -/

/-- Lookup in a cons cell. -/
theorem lookupKey_cons (p : String × String) (d : List (String × String))
    (k : String) :
    lookupKey (p :: d) k = if p.1 = k then some p.2 else lookupKey d k := by
  by_cases h : p.1 = k <;> simp [lookupKey, List.find?, h]

/-- A key that is absent has no binding. -/
theorem lookupKey_eq_none (d : List (String × String)) (k : String)
    (h : k ∉ keysOf d) : lookupKey d k = none := by
  induction d with
  | nil => rfl
  | cons p d ih =>
    simp only [keysOf, List.map_cons, List.mem_cons, not_or] at h
    rw [lookupKey_cons, if_neg (fun hp => h.1 hp.symm)]
    exact ih (by simpa [keysOf] using h.2)

/-- Effect of a single dict assignment on lookup. -/
theorem lookupKey_setKey (d : List (String × String)) (k v k' : String) :
    lookupKey (setKey d k v) k' = if k' = k then some v else lookupKey d k' := by
  induction d with
  | nil =>
    by_cases h : k' = k
    · simp [setKey, lookupKey_cons, h]
    · simp [setKey, lookupKey_cons, lookupKey, h, Ne.symm h]
  | cons p d ih =>
    by_cases hp : p.1 = k
    · subst hp
      by_cases h : k' = p.1
      · simp [setKey, lookupKey_cons, h]
      · simp [setKey, lookupKey_cons, h, Ne.symm h]
    · by_cases h : k' = k
      · subst h
        simp [setKey, lookupKey_cons, hp, Ne.symm hp, ih]
      · simp [setKey, lookupKey_cons, hp, h, ih]

/-- Updating with a dict that does not mention `k` leaves the binding of `k`
unchanged. -/
theorem lookupKey_dictUpdate_not_mem (u d : List (String × String))
    (k : String) (h : k ∉ keysOf u) :
    lookupKey (dictUpdate d u) k = lookupKey d k := by
  induction u generalizing d with
  | nil => rfl
  | cons p u ih =>
    simp only [keysOf, List.map_cons, List.mem_cons, not_or] at h
    rw [dictUpdate, ih _ (by simpa [keysOf] using h.2), lookupKey_setKey,
      if_neg h.1]

/-- Updating with a duplicate-free dict that binds `k` makes that binding
win. -/
theorem lookupKey_dictUpdate_mem (u d : List (String × String)) (k : String)
    (hnd : (keysOf u).Nodup) (h : k ∈ keysOf u) :
    lookupKey (dictUpdate d u) k = lookupKey u k := by
  induction u generalizing d with
  | nil => simp [keysOf] at h
  | cons p u ih =>
    simp only [keysOf, List.map_cons, List.nodup_cons] at hnd
    simp only [keysOf, List.map_cons, List.mem_cons] at h
    rw [dictUpdate, lookupKey_cons]
    rcases h with h | h
    · rw [if_pos h.symm,
        lookupKey_dictUpdate_not_mem u _ k (h ▸ hnd.1), lookupKey_setKey,
        if_pos h]
    · by_cases hp : p.1 = k
      · exact absurd (hp ▸ h) hnd.1
      · rw [if_neg hp, ih _ hnd.2 h]

/-! ### Well-formedness helpers -/

/-- In a well-formed world every closed id was allocated. -/
theorem wf_closed_lt (w : World) (hwf : w.wf = true) :
    ∀ t ∈ w.closedSids, t < w.nextSid := by
  simp only [World.wf, Bool.and_eq_true, List.all_eq_true,
    decide_eq_true_eq] at hwf
  exact hwf.1

/-- In a well-formed world the singleton slot holds an allocated id. -/
theorem wf_shared_lt (w : World) (hwf : w.wf = true) :
    ∀ t, w.shared = some t → t < w.nextSid := by
  intro t ht
  simp only [World.wf, Bool.and_eq_true] at hwf
  have h2 := hwf.2
  rw [ht] at h2
  simpa [Option.all] using h2

/-- In a well-formed world the next id to be allocated is not closed. -/
theorem wf_next_not_closed (w : World) (hwf : w.wf = true) :
    w.isClosed w.nextSid = false := by
  have h := wf_closed_lt w hwf
  simp only [World.isClosed, decide_eq_false_iff_not]
  intro hmem
  exact absurd (h _ hmem) (lt_irrefl _)

/-! ### URL-join lemmas -/

/-- Appending two string-mks concatenates their characters. -/
theorem mk_append_mk (l₁ l₂ : List Char) :
    (⟨l₁⟩ : String) ++ ⟨l₂⟩ = ⟨l₁ ++ l₂⟩ := rfl

/-- The empty string is a right identity of append. -/
theorem append_empty (s : String) : s ++ "" = s :=
  congrArg String.mk (List.append_nil s.data)

/-- The slash string as a character-list mk. -/
theorem slash_mk : ("/" : String) = ⟨['/']⟩ := rfl

/-- Interleaving a slash between two string-mks. -/
theorem mk_append_slash_mk (a l : List Char) :
    (⟨a⟩ : String) ++ "/" ++ ⟨l⟩ = ⟨a ++ '/' :: l⟩ := by
  rw [slash_mk, mk_append_mk, mk_append_mk]
  simp

/-- Splitting never produces the empty list. -/
theorem splitOnSlashAux_ne_nil (cs acc : List Char) :
    splitOnSlashAux cs acc ≠ [] := by
  induction cs generalizing acc with
  | nil => simp [splitOnSlashAux]
  | cons c cs ih =>
    by_cases h : c = '/'
    · simp [splitOnSlashAux, h]
    · simpa [splitOnSlashAux, h] using ih (c :: acc)

/-- Joining a cons with a non-empty tail. -/
theorem joinSlash_cons (s : String) (rest : List String) (h : rest ≠ []) :
    joinSlash (s :: rest) = s ++ "/" ++ joinSlash rest := by
  cases rest with
  | nil => exact absurd rfl h
  | cons t ts => rfl

/-- Joining the segments of a split restores the original characters. -/
theorem joinSlash_splitOnSlashAux (cs acc : List Char) :
    joinSlash (splitOnSlashAux cs acc) = ⟨acc.reverse ++ cs⟩ := by
  induction cs generalizing acc with
  | nil => simp [splitOnSlashAux, joinSlash]
  | cons c cs ih =>
    by_cases h : c = '/'
    · subst h
      rw [splitOnSlashAux, if_pos rfl,
        joinSlash_cons _ _ (splitOnSlashAux_ne_nil cs []), ih []]
      simp only [List.reverse_nil, List.nil_append]
      exact mk_append_slash_mk acc.reverse cs
    · rw [splitOnSlashAux, if_neg h, ih (c :: acc)]
      simp

/-- String-level split/join inverse. -/
theorem joinSlash_splitOnSlash (cs : List Char) :
    joinSlash (splitOnSlash cs) = ⟨cs⟩ := by
  simpa using joinSlash_splitOnSlashAux cs []

/-- Without a slash the split is a single segment. -/
theorem splitOnSlashAux_no_slash (cs acc : List Char) (h : '/' ∉ cs) :
    splitOnSlashAux cs acc = [⟨acc.reverse ++ cs⟩] := by
  induction cs generalizing acc with
  | nil => simp [splitOnSlashAux]
  | cons c cs ih =>
    simp only [List.mem_cons, not_or] at h
    rw [splitOnSlashAux, if_neg (fun hq => h.1 hq.symm), ih _ h.2]
    simp

/-- With a slash present the split has at least two segments. -/
theorem two_le_length_splitOnSlashAux (cs acc : List Char) (h : '/' ∈ cs) :
    2 ≤ (splitOnSlashAux cs acc).length := by
  induction cs generalizing acc with
  | nil => cases h
  | cons c cs ih =>
    by_cases hc : c = '/'
    · rw [splitOnSlashAux, if_pos hc]
      have hlen := List.length_pos.mpr (splitOnSlashAux_ne_nil cs [])
      simp only [List.length_cons]
      omega
    · have h2 : '/' ∈ cs := by
        rcases List.mem_cons.mp h with h1 | h1
        · exact absurd h1.symm hc
        · exact h1
      rw [splitOnSlashAux, if_neg hc]
      exact ih _ h2

/-- Dropping the last segment of a split and re-adding "/" yields the prefix
of the characters up to and including the last slash. -/
theorem joinSlash_dropLast_splitOnSlashAux (cs acc : List Char)
    (h : '/' ∈ cs) :
    joinSlash ((splitOnSlashAux cs acc).dropLast) ++ "/" =
      (⟨acc.reverse⟩ : String) ++ ⟨dirSlashList cs⟩ := by
  induction cs generalizing acc with
  | nil => cases h
  | cons c cs ih =>
    by_cases hc : c = '/'
    · subst hc
      by_cases h2 : '/' ∈ cs
      · have hne := splitOnSlashAux_ne_nil cs ([] : List Char)
        have hlen := two_le_length_splitOnSlashAux cs [] h2
        have hdne : (splitOnSlashAux cs []).dropLast ≠ [] := by
          have := List.length_dropLast (splitOnSlashAux cs [])
          intro hq
          rw [hq] at this
          simp at this
          omega
        rw [splitOnSlashAux, if_pos rfl,
          List.dropLast_cons_of_ne_nil hne,
          joinSlash_cons _ _ hdne]
        have hih := ih ([] : List Char) h2
        simp only [List.reverse_nil] at hih
        have hih2 : joinSlash ((splitOnSlashAux cs []).dropLast) ++ "/" =
            (⟨dirSlashList cs⟩ : String) := by
          simpa [mk_append_mk] using hih
        calc ((⟨acc.reverse⟩ : String) ++ "/" ++
                joinSlash ((splitOnSlashAux cs []).dropLast)) ++ "/"
            = (⟨acc.reverse⟩ : String) ++ "/" ++
                (joinSlash ((splitOnSlashAux cs []).dropLast) ++ "/") := by
              simp [String.append_assoc]
          _ = (⟨acc.reverse⟩ : String) ++ "/" ++ ⟨dirSlashList cs⟩ := by
              rw [hih2]
          _ = (⟨acc.reverse ++ '/' :: dirSlashList cs⟩ : String) :=
              mk_append_slash_mk acc.reverse (dirSlashList cs)
          _ = (⟨acc.reverse⟩ : String) ++ ⟨dirSlashList ('/' :: cs)⟩ := by
              simp [dirSlashList, h2, mk_append_mk]
      · rw [splitOnSlashAux, if_pos rfl, splitOnSlashAux_no_slash cs [] h2]
        simp [joinSlash, dirSlashList, h2, mk_append_mk]
    · have h2 : '/' ∈ cs := by
        rcases List.mem_cons.mp h with h1 | h1
        · exact absurd h1.symm hc
        · exact h1
      rw [splitOnSlashAux, if_neg hc, ih (c :: acc) h2]
      simp [dirSlashList, h2, mk_append_mk]

/-- Segment-level description of `dirSlash`. -/
theorem dirSlash_eq_joinSlash_dropLast (p : String) (h : '/' ∈ p.data) :
    joinSlash ((splitOnSlash p.data).dropLast) ++ "/" = dirSlash p := by
  have := joinSlash_dropLast_splitOnSlashAux p.data [] h
  simpa [splitOnSlash, dirSlash] using this

/-- The resolution fold of dot-free segments appends them all. -/
theorem resolve_fold_of_dotfree (segs : List String) (acc : List String)
    (h : ∀ s ∈ segs, s ≠ "." ∧ s ≠ "..") :
    segs.foldl (fun acc seg => if seg = ".." then acc.dropLast
      else if seg = "." then acc else acc ++ [seg]) acc = acc ++ segs := by
  induction segs generalizing acc with
  | nil => simp
  | cons s rest ih =>
    have hs := h s (List.mem_cons_self s rest)
    rw [List.foldl_cons, if_neg hs.2, if_neg hs.1,
      ih _ (fun t ht => h t (List.mem_cons_of_mem _ ht))]
    simp

/-- The last element is a member. -/
theorem mem_of_getLast?_eq {l : List String} {a : String}
    (h : l.getLast? = some a) : a ∈ l := by
  obtain ⟨hne, he⟩ := List.mem_getLast?_eq_getLast (Option.mem_def.mpr h)
  rw [he]
  exact List.getLast_mem hne

/-- Dot-segment resolution is the identity on dot-free segment lists. -/
theorem resolveSegments_eq_self (segs : List String)
    (h : ∀ s ∈ segs, s ≠ "." ∧ s ≠ "..") : resolveSegments segs = segs := by
  have hlast : ¬(segs.getLast? = some "." ∨ segs.getLast? = some "..") := by
    rintro (hl | hl)
    · exact (h _ (mem_of_getLast?_eq hl)).1 rfl
    · exact (h _ (mem_of_getLast?_eq hl)).2 rfl
  simp only [resolveSegments, if_neg hlast]
  simpa using resolve_fold_of_dotfree segs [] h

/-- filterMiddleAux over an append with a non-empty right part filters the
whole left part. -/
theorem filterMiddleAux_append (xs R : List String) (hR : R ≠ []) :
    filterMiddleAux (xs ++ R) =
      xs.filter (fun s => s ≠ "") ++ filterMiddleAux R := by
  induction xs with
  | nil => simp
  | cons x xs ih =>
    cases hxx : xs ++ R with
    | nil => exact absurd (List.append_eq_nil.mp hxx).2 hR
    | cons y ys =>
      rw [List.cons_append, hxx, filterMiddleAux, ← hxx, ih]
      by_cases hx : x = "" <;> simp [hx]

/-- filterMiddleAux is the identity when all but the last element are
non-empty. -/
theorem filterMiddleAux_eq_self (l : List String)
    (h : ∀ s ∈ l.dropLast, s ≠ "") : filterMiddleAux l = l := by
  induction l with
  | nil => rfl
  | cons s rest ih =>
    cases rest with
    | nil => rfl
    | cons t ts =>
      have hs : s ≠ "" := by
        refine h s ?_
        rw [List.dropLast_cons_of_ne_nil (by simp)]
        exact List.mem_cons_self s _
      rw [filterMiddleAux, if_neg hs, ih ?_]
      intro u hu
      refine h u ?_
      rw [List.dropLast_cons_of_ne_nil (by simp)]
      exact List.mem_cons_of_mem _ hu

/-- Joining an append of two non-empty segment lists. -/
theorem joinSlash_append (xs ys : List String) (hx : xs ≠ []) (hy : ys ≠ []) :
    joinSlash (xs ++ ys) = joinSlash xs ++ "/" ++ joinSlash ys := by
  induction xs with
  | nil => exact absurd rfl hx
  | cons x xs ih =>
    cases xs with
    | nil => simpa using joinSlash_cons x ys hy
    | cons t ts =>
      rw [List.cons_append, joinSlash_cons x _ (by simp),
        joinSlash_cons x (t :: ts) (by simp), ih (by simp)]
      simp [String.append_assoc]

/-- Joining with an empty first segment prepends a slash. -/
theorem joinSlash_empty_cons (L : List String) (h : L ≠ []) :
    joinSlash ("" :: L) = "/" ++ joinSlash L := by
  rw [joinSlash_cons _ _ h]
  rfl

/-- A string starting with "/" is non-empty with head "/". -/
theorem slash_append_head (S : String) :
    ("/" ++ S).data.head? = some '/' := rfl

/-- A string starting with "/" is not empty. -/
theorem slash_append_ne_empty (S : String) : ("/" ++ S) ≠ "" := by
  intro h
  simpa using congrArg String.data h

/-- Splitting after a leading slash. -/
theorem splitOnSlash_cons_slash (t : List Char) :
    splitOnSlash ('/' :: t) = "" :: splitOnSlash t := by
  simp [splitOnSlash, splitOnSlashAux]

/-- A split is never the empty list. -/
theorem splitOnSlash_ne_nil (cs : List Char) : splitOnSlash cs ≠ [] :=
  splitOnSlashAux_ne_nil cs []

/-- A suffix-free reference splits into itself and the empty suffix. -/
theorem splitSuffix_plain (cs : List Char)
    (h : ∀ c ∈ cs, c ≠ '?' ∧ c ≠ '#') : splitSuffix cs = (cs, "") := by
  have h1 : cs.takeWhile notHashB = cs := by
    rw [List.takeWhile_eq_self_iff]
    intro c hc
    simp [notHashB, (h c hc).2]
  have h2 : cs.dropWhile notHashB = [] := by
    rw [List.dropWhile_eq_nil_iff]
    intro c hc
    simp [notHashB, (h c hc).2]
  have h3 : cs.takeWhile notQmarkB = cs := by
    rw [List.takeWhile_eq_self_iff]
    intro c hc
    simp [notQmarkB, (h c hc).1]
  have h4 : cs.dropWhile notQmarkB = [] := by
    rw [List.dropWhile_eq_nil_iff]
    intro c hc
    simp [notQmarkB, (h c hc).1]
  simp [splitSuffix, h1, h2, h3, h4]

/-- A suffix-free reference that does not carry an authority goes through
the relative-resolution path of `urljoin` with its characters as the path. -/
theorem urljoin_plain (base : Url) (rel : String) (hne : rel ≠ "")
    (htwo : ¬(rel.data.head? = some '/' ∧ rel.data.tail.head? = some '/'))
    (hplain : ∀ c ∈ rel.data, c ≠ '?' ∧ c ≠ '#') :
    urljoin base rel = urljoinRelative base rel.data "" := by
  rw [urljoin, if_neg hne, if_neg htwo, splitSuffix_plain rel.data hplain]

/-- A dot-free absolute path reference replaces the base path verbatim. -/
theorem urljoinRelative_absolute (base : Url) (cs : List Char)
    (h1 : cs.head? = some '/')
    (hdot : ∀ s ∈ splitOnSlash cs, s ≠ "." ∧ s ≠ "..") :
    urljoinRelative base cs "" = ⟨base.scheme, base.host, ⟨cs⟩⟩ := by
  have hcs : cs ≠ [] := by
    intro hq
    rw [hq] at h1
    cases h1
  have hie : cs.isEmpty = false := List.isEmpty_eq_false.mpr hcs
  have hmkne : (⟨cs⟩ : String) ≠ "" := by
    intro hq
    exact hcs (congrArg String.data hq)
  simp only [urljoinRelative, hie, Bool.false_eq_true, if_false, if_pos h1,
    resolveSegments_eq_self _ hdot, joinSlash_splitOnSlash,
    if_neg hmkne]
  rw [append_empty]

/-- A plain relative path reference (non-empty, dot-free segments) joined
against a normal base path (leading "/", no empty middle segments, dot-free)
replaces everything after the base path's last "/". -/
theorem urljoinRelative_relative (base : Url) (cs : List Char)
    (parts : List String)
    (hb : splitOnSlash base.path.data = "" :: parts)
    (hbne : parts ≠ [])
    (hbmid : ∀ s ∈ parts.dropLast, s ≠ "")
    (hbdot : ∀ s ∈ parts, s ≠ "." ∧ s ≠ "..")
    (hsegs : ∀ s ∈ splitOnSlash cs, s ≠ "" ∧ s ≠ "." ∧ s ≠ "..") :
    urljoinRelative base cs "" =
      ⟨base.scheme, base.host, dirSlash base.path ++ ⟨cs⟩⟩ := by
  have hRne : splitOnSlash cs ≠ [] := splitOnSlash_ne_nil cs
  have hcs : cs ≠ [] := by
    intro hq
    subst hq
    exact (hsegs "" (by simp [splitOnSlash, splitOnSlashAux])).1 rfl
  have hhead : ¬(cs.head? = some '/') := by
    intro hq
    cases cs with
    | nil => cases hq
    | cons c t =>
      simp only [List.head?_cons, Option.some.injEq] at hq
      subst hq
      exact (hsegs "" (by rw [splitOnSlash_cons_slash]; exact
        List.mem_cons_self _ _)).1 rfl
  have hie : cs.isEmpty = false := List.isEmpty_eq_false.mpr hcs
  have hRgood : ∀ s ∈ (splitOnSlash cs).dropLast, s ≠ "" :=
    fun s hs => (hsegs s (List.dropLast_subset _ hs)).1
  have hfmR : filterMiddleAux (splitOnSlash cs) = splitOnSlash cs :=
    filterMiddleAux_eq_self _ hRgood
  have hfilter : parts.dropLast.filter (fun s => s ≠ "") = parts.dropLast :=
    List.filter_eq_self.mpr (fun s hs => by simpa using hbmid s hs)
  have hfm : filterMiddle (baseParts base.path.data ++ splitOnSlash cs) =
      "" :: (parts.dropLast ++ splitOnSlash cs) := by
    have hgl := List.getLast?_eq_getLast_of_ne_nil hbne
    by_cases ht : parts.getLast hbne = ""
    · -- base path ends in "/": the trailing empty segment is kept, then
      -- filtered out of the middle of the merged list
      have hglA : ("" :: parts).getLast? = some "" := by
        cases parts with
        | nil => exact absurd rfl hbne
        | cons p ps =>
          rw [List.getLast?_cons_cons]
          rw [ht] at hgl
          exact hgl
      have hBP : baseParts base.path.data = "" :: parts := by
        rw [baseParts, hb, if_pos hglA]
      have hdecomp : parts.dropLast ++ [""] = parts := by
        have := List.dropLast_append_getLast hbne
        rw [ht] at this
        exact this
      rw [hBP, List.cons_append, filterMiddle,
        filterMiddleAux_append _ _ hRne, hfmR]
      rw [← hdecomp, List.filter_append, hfilter]
      simp
    · -- base path does not end in "/": its last segment is dropped
      have hglB : ¬(("" :: parts).getLast? = some "") := by
        cases parts with
        | nil => exact absurd rfl hbne
        | cons p ps =>
          rw [List.getLast?_cons_cons]
          intro hq
          rw [hgl] at hq
          exact ht (Option.some.inj hq)
      have hBP : baseParts base.path.data = "" :: parts.dropLast := by
        rw [baseParts, hb, if_neg hglB, List.dropLast_cons_of_ne_nil hbne]
      rw [hBP, List.cons_append, filterMiddle,
        filterMiddleAux_append _ _ hRne, hfmR, hfilter]
  have hdotall : ∀ s ∈ "" :: (parts.dropLast ++ splitOnSlash cs),
      s ≠ "." ∧ s ≠ ".." := by
    intro s hs
    rcases List.mem_cons.mp hs with rfl | hs
    · exact ⟨by decide, by decide⟩
    · rcases List.mem_append.mp hs with hs | hs
      · exact hbdot s (List.dropLast_subset _ hs)
      · exact ⟨(hsegs s hs).2.1, (hsegs s hs).2.2⟩
  have hLne : parts.dropLast ++ splitOnSlash cs ≠ [] := by
    intro hq
    exact hRne (List.append_eq_nil.mp hq).2
  have hslash : '/' ∈ base.path.data := by
    by_contra hq
    have hsp := splitOnSlashAux_no_slash base.path.data [] hq
    simp only [splitOnSlash] at hb
    rw [hsp] at hb
    injection hb with h1 h2
    exact hbne h2.symm
  have hdir : dirSlash base.path =
      joinSlash ("" :: parts.dropLast) ++ "/" := by
    have := dirSlash_eq_joinSlash_dropLast base.path hslash
    rw [hb, List.dropLast_cons_of_ne_nil hbne] at this
    exact this.symm
  simp only [urljoinRelative, hie, Bool.false_eq_true, if_false,
    if_neg hhead, hfm, resolveSegments_eq_self _ hdotall,
    joinSlash_empty_cons _ hLne,
    if_neg (slash_append_ne_empty
      (joinSlash (parts.dropLast ++ splitOnSlash cs))),
    if_pos (slash_append_head
      (joinSlash (parts.dropLast ++ splitOnSlash cs))),
    append_empty]
  rw [hdir]
  cases hpi : parts.dropLast with
  | nil =>
    simp only [List.nil_append, joinSlash, joinSlash_splitOnSlash]
    rfl
  | cons p ps =>
    rw [joinSlash_append _ _ (by simp) hRne, joinSlash_splitOnSlash,
      joinSlash_empty_cons _ (by simp)]
    simp [String.append_assoc]

/-- A query-only reference keeps the base path and appends the query. -/
theorem urljoin_query_only (base : Url) (rel q : String)
    (hd : rel.data = '?' :: q.data) (hq : q ≠ "")
    (hnh : ∀ c ∈ q.data, c ≠ '#') :
    urljoin base rel = ⟨base.scheme, base.host, base.path ++ ("?" ++ q)⟩ := by
  have hne : rel ≠ "" := by
    intro he
    rw [he] at hd
    cases hd
  have htwo : ¬(rel.data.head? = some '/' ∧
      rel.data.tail.head? = some '/') := by
    rintro ⟨h1, _⟩
    rw [hd] at h1
    simp at h1
  have hpre : ('?' :: q.data).takeWhile notHashB = '?' :: q.data := by
    rw [List.takeWhile_eq_self_iff]
    intro c hc
    rcases List.mem_cons.mp hc with rfl | hc
    · rfl
    · simp [notHashB, hnh c hc]
  have hdrop : ('?' :: q.data).dropWhile notHashB = [] := by
    rw [List.dropWhile_eq_nil_iff]
    intro c hc
    rcases List.mem_cons.mp hc with rfl | hc
    · rfl
    · simp [notHashB, hnh c hc]
  have hqe : q.data.isEmpty = false :=
    List.isEmpty_eq_false.mpr (fun hz => hq (congrArg String.mk hz))
  have hpath : ('?' :: q.data).takeWhile notQmarkB = [] := rfl
  have hquery : ('?' :: q.data).dropWhile notQmarkB = '?' :: q.data := rfl
  have hss : splitSuffix ('?' :: q.data) = ([], "?" ++ q) := by
    simp only [splitSuffix]
    rw [hpre, hdrop, hpath, hquery]
    simp [hqe, append_empty]
  rw [urljoin, if_neg hne, if_neg htwo, hd, hss]
  rfl

/-! ### Claim theorems -/

/-- C1.  For every response received by `execute_request` through a bound
session: a 2xx status returns the response unmodified; 401 raises the
authentication error whose message is "Authentication failed: <status>
<reason>"; 403 raises the authorization error whose message is
"Authorization failed: <status> <reason>"; any other 4xx raises the client
error with message "<status> <reason>"; any 5xx raises the server error with
message "<status> <reason>". -/
theorem execute_request_status_classification
    (rm : RequestManager) (cfg : RequestModel) (sid : Nat)
    (h : rm.session = some sid) (r : Response) :
    (200 ≤ r.status ∧ r.status ≤ 299 →
      (execute_request rm cfg (fun _ => r)).1 = .ok r) ∧
    (r.status = 401 →
      (execute_request rm cfg (fun _ => r)).1 =
        .error (.authenticationError
          ("Authentication failed: " ++ toString r.status ++ " " ++ r.reason))) ∧
    (r.status = 403 →
      (execute_request rm cfg (fun _ => r)).1 =
        .error (.authorizationError
          ("Authorization failed: " ++ toString r.status ++ " " ++ r.reason))) ∧
    (400 ≤ r.status → r.status < 500 → r.status ≠ 401 → r.status ≠ 403 →
      (execute_request rm cfg (fun _ => r)).1 =
        .error (.clientError (toString r.status ++ " " ++ r.reason))) ∧
    (500 ≤ r.status → r.status < 600 →
      (execute_request rm cfg (fun _ => r)).1 =
        .error (.serverError (toString r.status ++ " " ++ r.reason))) := by
  refine ⟨?_, ?_, ?_, ?_, ?_⟩
  · rintro ⟨h1, h2⟩
    simp only [execute_request, h, classifyResponse]
    rw [if_neg (by omega), if_neg (by omega), if_neg (by omega),
      if_neg (by omega)]
  · intro h1
    simp only [execute_request, h, classifyResponse]
    rw [if_pos h1]
  · intro h1
    simp only [execute_request, h, classifyResponse]
    rw [if_neg (by omega), if_pos h1]
  · intro h1 h2 h3 h4
    simp only [execute_request, h, classifyResponse]
    rw [if_neg h3, if_neg h4, if_pos ⟨h1, h2⟩]
  · intro h1 h2
    simp only [execute_request, h, classifyResponse]
    rw [if_neg (by omega), if_neg (by omega), if_neg (by omega),
      if_pos ⟨h1, h2⟩]

/-- Witness for C1: a manager bound to session `0` and a `404 Not Found`
response produce the client error "404 Not Found". -/
theorem execute_request_status_classification_witness :
    (execute_request ⟨some 0, false, none⟩
        { base_url := ⟨"https", "api.example.com", "/"⟩, method := "GET",
          endpoint := "", timeout := 30, params := [],
          headers := DEFAULT_HEADERS, data := none }
        (fun _ => ⟨404, "Not Found"⟩)).1 =
      .error (.clientError "404 Not Found") :=
  (execute_request_status_classification ⟨some 0, false, none⟩ _ 0 rfl
    ⟨404, "Not Found"⟩).2.2.2.1 (by decide) (by decide) (by decide) (by decide)

/-- C10.  A status outside both 200-299 and 400-599 (3xx, 1xx, …) raises no
error: the response is returned unmodified exactly as for a 2xx. -/
theorem execute_request_nonerror_status_passthrough
    (rm : RequestManager) (cfg : RequestModel) (sid : Nat)
    (h : rm.session = some sid) (r : Response)
    (_hout2xx : r.status < 200 ∨ 299 < r.status)
    (hout45xx : r.status < 400 ∨ 599 < r.status) :
    (execute_request rm cfg (fun _ => r)).1 = .ok r := by
  simp only [execute_request, h, classifyResponse]
  rw [if_neg (by omega), if_neg (by omega), if_neg (by omega),
    if_neg (by omega)]

/-- Witness for C10: a 302 redirect response is returned unmodified. -/
theorem execute_request_nonerror_status_passthrough_witness :
    (execute_request ⟨some 0, false, none⟩
        { base_url := ⟨"https", "api.example.com", "/"⟩, method := "GET",
          endpoint := "", timeout := 30, params := [],
          headers := DEFAULT_HEADERS, data := none }
        (fun _ => ⟨302, "Found"⟩)).1 = .ok ⟨302, "Found"⟩ :=
  execute_request_nonerror_status_passthrough ⟨some 0, false, none⟩ _ 0 rfl
    ⟨302, "Found"⟩ (by decide) (by decide)

/-- C6.  An executor constructed without a session, with scoped entry not
performed, fails immediately: `execute_request` returns the configuration
error whose message starts with "No session available", and the transport is
never invoked (no URL was requested). -/
theorem execute_request_no_session (cfg : RequestModel)
    (respond : String → Response) :
    execute_request (RequestManager.init none) cfg respond =
      (.error (.configurationError noSessionMsg), none) ∧
    "No session available".data.isPrefixOf noSessionMsg.data = true :=
  ⟨rfl, rfl⟩

/-- A `RequestModel` whose headers dict has been emptied, the precondition of
the legacy "falsy headers" path of `update_headers`. -/
def emptyHeadersModel : RequestModel :=
  { base_url := ⟨"https", "api.example.com", "/"⟩, method := "GET",
    endpoint := "", timeout := 30, params := [], headers := [], data := none }

/-- C2 (failing input).  On a config with empty headers,
`update_headers({"X-Custom": "v"})` resets the headers to the default set and
silently discards its argument: "X-Custom" is not present afterwards, while
the merge the claim (and the method's own docstring) describes would have
kept it. -/
theorem update_headers_empty_drops_argument :
    (update_headers emptyHeadersModel [("X-Custom", "v")]).headers =
      DEFAULT_HEADERS ∧
    lookupKey (update_headers emptyHeadersModel [("X-Custom", "v")]).headers
      "X-Custom" = none ∧
    lookupKey (dictUpdate DEFAULT_HEADERS [("X-Custom", "v")]) "X-Custom" =
      some "v" := by
  exact ⟨rfl, rfl, rfl⟩

/-- C5.  `close_shared_session` closes the stored session and clears the
singleton reference exactly when a shared session exists and is open; with no
shared session, or with the stored session already reporting closed, it
leaves the state untouched and does not invoke the underlying close; across
two consecutive calls the underlying close is invoked at most once. -/
theorem close_shared_session_guarded (w : World) :
    (w.shared = none → close_shared_session w = (w, 0)) ∧
    (∀ s, w.shared = some s → w.isClosed s = true →
      close_shared_session w = (w, 0)) ∧
    (∀ s, w.shared = some s → w.isClosed s = false →
      close_shared_session w =
        ({ nextSid := w.nextSid, closedSids := s :: w.closedSids,
           shared := none }, 1)) ∧
    (close_shared_session (close_shared_session w).1).2 +
      (close_shared_session w).2 ≤ 1 := by
  refine ⟨?_, ?_, ?_, ?_⟩
  · intro h
    simp [close_shared_session, h]
  · intro s h hc
    simp [close_shared_session, h, hc]
  · intro s h hc
    simp [close_shared_session, h, hc, World.closeSession]
  · rcases hs : w.shared with _ | s
    · simp [close_shared_session, hs]
    · cases hc : w.isClosed s
      · simp [close_shared_session, hs, hc, World.closeSession]
      · simp [close_shared_session, hs, hc]

/-- Witness for C5: with the stored session already closed, the call changes
nothing and performs zero underlying closes. -/
theorem close_shared_session_guarded_witness :
    close_shared_session ⟨1, [0], some 0⟩ = (⟨1, [0], some 0⟩, 0) :=
  (close_shared_session_guarded ⟨1, [0], some 0⟩).2.1 0 rfl (by decide)

/-- C3.  Scoped acquisition and session ownership: with a caller-supplied
session the executor's enter/exit cycle leaves the world untouched (in
particular it never closes that session, which stays referencable); without
one, entry creates a fresh open session and exit closes it and clears the
executor's reference. -/
theorem request_manager_session_ownership (w : World) (s : Nat)
    (hwf : w.wf = true) (hopen : w.isClosed s = false) :
    (((RequestManager.init (some s)).aenter w).1.aexit
        ((RequestManager.init (some s)).aenter w).2 =
      (⟨some s, false, none⟩, w)) ∧
    ((((RequestManager.init (some s)).aenter w).1.aexit
        ((RequestManager.init (some s)).aenter w).2).2.isClosed s = false) ∧
    (((RequestManager.init none).aenter w).1.session = some w.nextSid ∧
     ((RequestManager.init none).aenter w).2.isClosed w.nextSid = false ∧
     (((RequestManager.init none).aenter w).1.aexit
         ((RequestManager.init none).aenter w).2).1.session = none ∧
     (((RequestManager.init none).aenter w).1.aexit
         ((RequestManager.init none).aenter w).2).2.isClosed w.nextSid
       = true) := by
  refine ⟨rfl, hopen, rfl, ?_, rfl, ?_⟩
  · simpa [RequestManager.init, RequestManager.aenter, World.newSession,
      World.isClosed] using wf_next_not_closed w hwf
  · simp [RequestManager.init, RequestManager.aenter, RequestManager.aexit,
      World.newSession, World.closeSession, World.isClosed]

/-- Witness for C3 in the world with one open session `0`: the external
enter/exit cycle keeps session `0` open and referencable, and the self-owned
cycle creates and then closes session `1`. -/
theorem request_manager_session_ownership_witness :
    (((RequestManager.init (some 0)).aenter ⟨1, [], none⟩).1.aexit
        ((RequestManager.init (some 0)).aenter ⟨1, [], none⟩).2 =
      (⟨some 0, false, none⟩, ⟨1, [], none⟩)) ∧
    (((RequestManager.init none).aenter ⟨1, [], none⟩).1.aexit
        ((RequestManager.init none).aenter ⟨1, [], none⟩).2).2.isClosed 1
      = true :=
  ⟨(request_manager_session_ownership ⟨1, [], none⟩ 0 (by decide)
      (by decide)).1,
   (request_manager_session_ownership ⟨1, [], none⟩ 0 (by decide)
      (by decide)).2.2.2.2.2⟩

/-- C4.  The shared session is a lazily created process-wide singleton: two
`get_shared_session` calls with no intervening close return the identical
session; once `close_shared_session` has closed the stored open session, the
next `get_shared_session` returns a new, distinct one. -/
theorem get_shared_session_singleton (w : World) (hwf : w.wf = true) :
    ((get_shared_session (get_shared_session w).2).1 =
      (get_shared_session w).1) ∧
    (∀ s, w.shared = some s → w.isClosed s = false →
      (get_shared_session (close_shared_session w).1).1 ≠ s) := by
  constructor
  · have hfresh : w.nextSid ∉ w.closedSids := by
      simpa [World.isClosed] using wf_next_not_closed w hwf
    rcases hs : w.shared with _ | s
    · simp [get_shared_session, hs, World.newSession, World.isClosed, hfresh]
    · cases hc : w.isClosed s
      · simp [get_shared_session, hs, hc]
      · have hc' : s ∈ w.closedSids := by
          simpa [World.isClosed] using hc
        simp [get_shared_session, hs, hc', World.newSession, World.isClosed,
          hfresh]
  · intro s hs hc
    have hlt := wf_shared_lt w hwf s hs
    simp [close_shared_session, hs, hc, World.closeSession,
      get_shared_session, World.newSession]
    omega

/-- Witness for C4 in the world whose open session `0` is the stored
singleton: repeated acquisition returns the same id, and acquisition after a
successful close returns a different id. -/
theorem get_shared_session_singleton_witness :
    ((get_shared_session (get_shared_session ⟨1, [], some 0⟩).2).1 =
      (get_shared_session ⟨1, [], some 0⟩).1) ∧
    (get_shared_session (close_shared_session ⟨1, [], some 0⟩).1).1 ≠ 0 :=
  ⟨(get_shared_session_singleton ⟨1, [], some 0⟩ (by decide)).1,
   (get_shared_session_singleton ⟨1, [], some 0⟩ (by decide)).2 0 rfl
     (by decide)⟩

/-- C7.  Construction fails with a validation error if and only if the
method is outside {GET, POST, PUT, DELETE, PATCH, HEAD}, or the timeout is
≤ 0, or the base URL is missing/malformed; when it succeeds the stored
timeout equals the supplied value unchanged, and execution of a constructed
model is determined purely by the session and the response classification —
no validation failure can surface at execution time. -/
theorem mkRequestModel_validation (base_url : Option Url)
    (method endpoint : String) (timeout : ℚ)
    (params headers : List (String × String))
    (data : Option (List (String × String))) :
    ((∃ e, mkRequestModel base_url method endpoint timeout params headers
        data = .error e) ↔
      (method ∉ VALID_METHODS ∨ timeout ≤ 0 ∨ base_url = none)) ∧
    (∀ m, mkRequestModel base_url method endpoint timeout params headers
        data = .ok m → m.timeout = timeout) ∧
    (∀ m, mkRequestModel base_url method endpoint timeout params headers
        data = .ok m → ∀ sid (respond : String → Response),
      execute_request ⟨some sid, false, none⟩ m respond =
        (classifyResponse (respond ((urljoin m.base_url m.endpoint).render)),
         some ((urljoin m.base_url m.endpoint).render))) := by
  refine ⟨?_, ?_, ?_⟩
  · rcases base_url with _ | u
    · simp [mkRequestModel]
    · by_cases hm : method ∈ VALID_METHODS
      · by_cases ht : timeout > 0
        · simp [mkRequestModel, hm, ht, not_le.mpr ht]
        · simp [mkRequestModel, hm, ht, not_lt.mp ht]
      · simp [mkRequestModel, hm]
  · intro m hm2
    rcases base_url with _ | u
    · simp [mkRequestModel] at hm2
    · simp only [mkRequestModel] at hm2
      split at hm2
      · split at hm2
        · injection hm2 with h
          subst h
          rfl
        · cases hm2
      · cases hm2
  · intro m _ sid respond
    rfl

/-- Witness for C7: the default construction succeeds and round-trips the
timeout 30 unchanged. -/
theorem mkRequestModel_validation_witness :
    ({ base_url := ⟨"https", "api.example.com", "/"⟩, method := "GET",
       endpoint := "", timeout := 30, params := [],
       headers := dictUpdate DEFAULT_HEADERS [], data := none } :
      RequestModel).timeout = 30 :=
  (mkRequestModel_validation (some ⟨"https", "api.example.com", "/"⟩) "GET"
    "" 30 [] [] none).2.1 _ (by rfl)

/-- C8.  After a successful construction with caller headers `H` (a dict, so
duplicate-free keys), the resulting headers are the defaults overlaid with
`H`: every key of `H` carries the caller's value, and every key absent from
`H` carries its default binding (so a default key absent from `H` keeps its
default value). -/
theorem construction_header_merge (base_url : Url) (method endpoint : String)
    (timeout : ℚ) (params : List (String × String))
    (H : List (String × String)) (data : Option (List (String × String)))
    (m : RequestModel) (hnd : (keysOf H).Nodup)
    (hm : mkRequestModel (some base_url) method endpoint timeout params H
      data = .ok m) (k : String) :
    (k ∈ keysOf H → lookupKey m.headers k = lookupKey H k) ∧
    (k ∉ keysOf H → lookupKey m.headers k = lookupKey DEFAULT_HEADERS k) := by
  have hh : m.headers = dictUpdate DEFAULT_HEADERS H := by
    simp only [mkRequestModel] at hm
    split at hm
    · split at hm
      · injection hm with h
        subst h
        rfl
      · cases hm
    · cases hm
  constructor
  · intro hk
    rw [hh, lookupKey_dictUpdate_mem H DEFAULT_HEADERS k hnd hk]
  · intro hk
    rw [hh, lookupKey_dictUpdate_not_mem H DEFAULT_HEADERS k hk]

/-- Witness for C8: constructing with caller headers `{"X-Custom": "v"}`
leaves "X-Custom" bound to "v" in the merged result. -/
theorem construction_header_merge_witness :
    lookupKey ({ base_url := ⟨"https", "api.example.com", "/"⟩,
                 method := "GET", endpoint := "", timeout := 30, params := [],
                 headers := dictUpdate DEFAULT_HEADERS [("X-Custom", "v")],
                 data := none } : RequestModel).headers "X-Custom"
      = some "v" :=
  ((construction_header_merge ⟨"https", "api.example.com", "/"⟩ "GET" "" 30
    [] [("X-Custom", "v")] none _ (by decide) rfl "X-Custom").1
    (by decide)).trans rfl

/-- C9 (counterexample).  The claim's "otherwise it is appended" fails on
the code: with base URL "https://api.example.com/a/b" and endpoint
"v1/resource", `execute_request` issues the request to
"https://api.example.com/a/v1/resource" (the endpoint replaces the "b"
segment), not to the appended "https://api.example.com/a/b/v1/resource". -/
theorem execute_request_url_append_counterexample :
    (execute_request ⟨some 0, false, none⟩
        { base_url := ⟨"https", "api.example.com", "/a/b"⟩, method := "GET",
          endpoint := "v1/resource", timeout := 30, params := [],
          headers := DEFAULT_HEADERS, data := none }
        (fun _ => ⟨200, "OK"⟩)).2 =
      some "https://api.example.com/a/v1/resource" ∧
    (execute_request ⟨some 0, false, none⟩
        { base_url := ⟨"https", "api.example.com", "/a/b"⟩, method := "GET",
          endpoint := "v1/resource", timeout := 30, params := [],
          headers := DEFAULT_HEADERS, data := none }
        (fun _ => ⟨200, "OK"⟩)).2 ≠
      some "https://api.example.com/a/b/v1/resource" :=
  ⟨rfl, by decide⟩

/-- C9 (amended).  The target URL of execute is the standard URL-join
(`urllib.parse.urljoin`) of base URL and endpoint.  For scheme-free,
parameter-free endpoints (no "?", "#", ":", ";"): a rooted path endpoint
(leading "/", not "//", dot-free segments) replaces the base URL's path
component; a plain relative path endpoint (non-empty, dot-free segments,
against a base path with a leading "/" and no empty middle segments) is
resolved against the base path, replacing the part after the base path's
last "/" — so it is appended exactly when the base path ends in "/"; a
query-only endpoint keeps the base path and appends the query.  Endpoints
with an authority ("//…") or dot segments follow urllib's resolution
(authority replacement, dot-segment removal), as the final two concrete
cases show.  In particular the config {base_url "https://api.example.com/",
endpoint "v1/resource"} is issued to exactly
"https://api.example.com/v1/resource", and a session answering 200 yields
that response with status 200. -/
theorem execute_request_url_join (rm : RequestManager) (cfg : RequestModel)
    (sid : Nat) (h : rm.session = some sid) (respond : String → Response) :
    (cfg.endpoint.data.head? = some '/' →
     cfg.endpoint.data.tail.head? ≠ some '/' →
     (∀ c ∈ cfg.endpoint.data, c ≠ '?' ∧ c ≠ '#' ∧ c ≠ ':' ∧ c ≠ ';') →
     (∀ s ∈ splitOnSlash cfg.endpoint.data, s ≠ "." ∧ s ≠ "..") →
      (execute_request rm cfg respond).2 =
        some (cfg.base_url.scheme ++ "://" ++ cfg.base_url.host ++
          cfg.endpoint)) ∧
    (∀ parts, splitOnSlash cfg.base_url.path.data = "" :: parts →
     parts ≠ [] →
     (∀ s ∈ parts.dropLast, s ≠ "") →
     (∀ s ∈ parts, s ≠ "." ∧ s ≠ "..") →
     (∀ c ∈ cfg.endpoint.data, c ≠ '?' ∧ c ≠ '#' ∧ c ≠ ':' ∧ c ≠ ';') →
     (∀ s ∈ splitOnSlash cfg.endpoint.data, s ≠ "" ∧ s ≠ "." ∧ s ≠ "..") →
      (execute_request rm cfg respond).2 =
        some (cfg.base_url.scheme ++ "://" ++ cfg.base_url.host ++
          (dirSlash cfg.base_url.path ++ cfg.endpoint))) ∧
    (∀ q : String, cfg.endpoint.data = '?' :: q.data → q ≠ "" →
     (∀ c ∈ q.data, c ≠ '#') →
      (execute_request rm cfg respond).2 =
        some (cfg.base_url.scheme ++ "://" ++ cfg.base_url.host ++
          (cfg.base_url.path ++ "?" ++ q))) ∧
    execute_request ⟨some sid, false, none⟩
        { base_url := ⟨"https", "api.example.com", "/"⟩, method := "GET",
          endpoint := "v1/resource", timeout := 30, params := [],
          headers := DEFAULT_HEADERS, data := none }
        (fun _ => ⟨200, "OK"⟩) =
      (.ok ⟨200, "OK"⟩, some "https://api.example.com/v1/resource") ∧
    (execute_request ⟨some sid, false, none⟩
        { base_url := ⟨"https", "api.example.com", "/a/b/"⟩, method := "GET",
          endpoint := "../x", timeout := 30, params := [],
          headers := DEFAULT_HEADERS, data := none }
        (fun _ => ⟨200, "OK"⟩)).2 = some "https://api.example.com/a/x" ∧
    (execute_request ⟨some sid, false, none⟩
        { base_url := ⟨"https", "api.example.com", "/a/b"⟩, method := "GET",
          endpoint := "//evil.com/x", timeout := 30, params := [],
          headers := DEFAULT_HEADERS, data := none }
        (fun _ => ⟨200, "OK"⟩)).2 = some "https://evil.com/x" := by
  refine ⟨?_, ?_, ?_, rfl, rfl, rfl⟩
  · intro h1 h2 hres hdot
    have hpe : cfg.endpoint.data ≠ [] := by
      intro hq
      rw [hq] at h1
      cases h1
    have hne : cfg.endpoint ≠ "" := by
      intro he
      exact hpe (congrArg String.data he)
    have htwo : ¬(cfg.endpoint.data.head? = some '/' ∧
        cfg.endpoint.data.tail.head? = some '/') := fun hq => h2 hq.2
    have hju := urljoin_plain cfg.base_url cfg.endpoint hne htwo
      (fun c hc => ⟨(hres c hc).1, (hres c hc).2.1⟩)
    have habs := urljoinRelative_absolute cfg.base_url cfg.endpoint.data h1
      hdot
    simp only [execute_request, h]
    rw [hju, habs]
    rfl
  · intro parts hb hbne hbmid hbdot hres hsegs
    have hcs : cfg.endpoint.data ≠ [] := by
      intro hq
      have := hsegs "" (by rw [hq]; simp [splitOnSlash, splitOnSlashAux])
      exact this.1 rfl
    have hne : cfg.endpoint ≠ "" := fun he => hcs (congrArg String.data he)
    have hhead : ¬(cfg.endpoint.data.head? = some '/') := by
      intro hq
      cases hcd : cfg.endpoint.data with
      | nil => exact hcs hcd
      | cons c t =>
        rw [hcd] at hq
        simp only [List.head?_cons, Option.some.injEq] at hq
        subst hq
        have := hsegs "" (by
          rw [hcd, splitOnSlash_cons_slash]
          exact List.mem_cons_self _ _)
        exact this.1 rfl
    have htwo : ¬(cfg.endpoint.data.head? = some '/' ∧
        cfg.endpoint.data.tail.head? = some '/') := fun hq => hhead hq.1
    have hju := urljoin_plain cfg.base_url cfg.endpoint hne htwo
      (fun c hc => ⟨(hres c hc).1, (hres c hc).2.1⟩)
    have hrel := urljoinRelative_relative cfg.base_url cfg.endpoint.data
      parts hb hbne hbmid hbdot hsegs
    simp only [execute_request, h]
    rw [hju, hrel]
    rfl
  · intro q hd hq hnh
    have hqo := urljoin_query_only cfg.base_url cfg.endpoint q hd hq hnh
    simp only [execute_request, h]
    rw [hqo]
    simp [Url.render, String.append_assoc]

/-- Witness for C9: the counterexample's own input, now settled positively —
the relative endpoint "v1/resource" against base path "/a/b" is issued to
the base path's directory prefix plus the endpoint. -/
theorem execute_request_url_join_witness :
    (execute_request ⟨some 0, false, none⟩
        { base_url := ⟨"https", "api.example.com", "/a/b"⟩, method := "GET",
          endpoint := "v1/resource", timeout := 30, params := [],
          headers := DEFAULT_HEADERS, data := none }
        (fun _ => ⟨200, "OK"⟩)).2 =
      some ("https" ++ "://" ++ "api.example.com" ++
        (dirSlash "/a/b" ++ "v1/resource")) :=
  (execute_request_url_join ⟨some 0, false, none⟩ _ 0 rfl _).2.1
    ["a", "b"] (by decide) (by decide) (by decide) (by decide) (by decide)
    (by decide)

end Grpy
